import Mathlib

/-!
# Verification of the Coupon-Bot redemption core

Shallow embedding of the coupon redemption service.  The repository ships
its bootstrap (`cmd/root.go`) in source form; the redemption core
(storage adapter, request codec, redemption engine) lives in packages
referenced by the bootstrap (`coupons`, `storage`) whose sources are not
in the tree, so those components are modelled from the specification.
The bootstrap flow of `cmd/root.go` is embedded directly, with the
external collaborators (viper configuration, `net.SplitHostPort`, the
messaging client API, the filesystem) represented as environment inputs.
-/

namespace CouponBot

/-! ## Storage adapter data model (modelled from the spec) -/

/-- Modelled from the spec: redemption status of a coupon record
(`status: enum{Unredeemed, Redeemed}`); the `storage` package is not in
the source tree. -/
inductive Status where
  | Unredeemed
  | Redeemed
deriving DecidableEq, Repr

/-- Modelled from the spec: `CouponRecord = {code, status, redeemedBy,
redeemedAt, payload}`; the `storage` package is not in the source tree.
The code is the key of the store, so it is kept outside the record. -/
structure CouponRecord where
  status : Status
  redeemedBy : Option String
  redeemedAt : Option Nat
  payload : List Char
deriving DecidableEq, Repr

/-- The durable store: an association list keyed by coupon code
(case-normalized character strings). -/
abbrev Store := List (List Char × CouponRecord)

/-- Read-only lookup of a coupon record by code. -/
def lookup : Store → List Char → Option CouponRecord
  | [], _ => none
  | (k, r) :: rest, code => if k = code then some r else lookup rest code

/-- Replace the record stored under `code` (all entries with that key),
leaving every other entry untouched.  The key set of the store never
changes. -/
def setRecord : Store → List Char → CouponRecord → Store
  | [], _, _ => []
  | (k, v) :: rest, code, r =>
    if k = code then (k, r) :: setRecord rest code r
    else (k, v) :: setRecord rest code r

/-- The key list of a store. -/
def keys (s : Store) : List (List Char) :=
  s.map Prod.fst

/-- Modelled from the spec: outcome of the atomic consume primitive
`tryConsume -> {Consumed(payload) | AlreadyRedeemed | NotFound |
StorageError}`; the `storage` package is not in the source tree. -/
inductive ConsumeOutcome where
  | Consumed (payload : List Char)
  | AlreadyRedeemed
  | NotFound
  | StorageError
deriving DecidableEq, Repr

/-- Modelled from the spec: `tryConsume(code, requesterIdentity, at)`,
the single atomic conditional update ("update status to Redeemed where
code = X and status = Unredeemed"); the `storage` package is not in the
source tree.  Returns the outcome together with the updated store. -/
def tryConsume (s : Store) (code : List Char) (requester : String)
    (at_ : Nat) : ConsumeOutcome × Store :=
  match lookup s code with
  | none => (ConsumeOutcome.NotFound, s)
  | some r =>
    match r.status with
    | Status.Unredeemed =>
      (ConsumeOutcome.Consumed r.payload,
       setRecord s code
         ⟨Status.Redeemed, some requester, some at_, r.payload⟩)
    | Status.Redeemed => (ConsumeOutcome.AlreadyRedeemed, s)

/-! ### Basic lemmas about the store -/

lemma lookup_setRecord_self (s : Store) (code : List Char)
    (r : CouponRecord) (h : (lookup s code).isSome) :
    lookup (setRecord s code r) code = some r := by
  induction s with
  | nil => simp [lookup] at h
  | cons p rest ih =>
    obtain ⟨k, v⟩ := p
    by_cases hk : k = code
    · subst hk
      simp [setRecord, lookup]
    · simp only [lookup, if_neg hk] at h
      have hrest := ih h
      simp [setRecord, lookup, hk]
      exact hrest

lemma lookup_setRecord_ne (s : Store) (code c : List Char)
    (r : CouponRecord) (hne : c ≠ code) :
    lookup (setRecord s code r) c = lookup s c := by
  induction s with
  | nil => simp [setRecord, lookup]
  | cons p rest ih =>
    obtain ⟨k, v⟩ := p
    by_cases hk : k = code
    · subst hk
      have hkc : k ≠ c := fun h => hne h.symm
      simpa [setRecord, lookup, hkc] using ih
    · by_cases hc : k = c
      · subst hc
        simp [setRecord, lookup, hk]
      · simpa [setRecord, lookup, hk, hc] using ih

lemma keys_setRecord (s : Store) (code : List Char) (r : CouponRecord) :
    keys (setRecord s code r) = keys s := by
  induction s with
  | nil => rfl
  | cons p rest ih =>
    obtain ⟨k, v⟩ := p
    by_cases hk : k = code
    · subst hk
      simpa [setRecord, keys] using ih
    · simpa [setRecord, keys, hk] using ih

/-- `tryConsume` never creates or deletes records: the key list of the
store is preserved by every call. -/
lemma keys_tryConsume (s : Store) (code : List Char) (u : String)
    (t : Nat) : keys (tryConsume s code u t).2 = keys s := by
  unfold tryConsume
  cases h : lookup s code with
  | none => rfl
  | some r =>
    obtain ⟨st, rb, ra, pl⟩ := r
    cases st
    · exact keys_setRecord s code _
    · rfl

/-- On a record that is already `Redeemed`, `tryConsume` reports
`AlreadyRedeemed` and returns the store unchanged. -/
lemma tryConsume_redeemed (s : Store) (code : List Char) (u : String)
    (t : Nat) (r : CouponRecord) (h : lookup s code = some r)
    (hst : r.status = Status.Redeemed) :
    tryConsume s code u t = (ConsumeOutcome.AlreadyRedeemed, s) := by
  obtain ⟨st, rb, ra, pl⟩ := r
  simp only at hst
  subst hst
  unfold tryConsume
  rw [h]

/-- On a record that is `Unredeemed`, `tryConsume` consumes it: the
outcome carries the payload and the stored record becomes `Redeemed`
with the caller's identity and timestamp. -/
lemma tryConsume_unredeemed (s : Store) (code : List Char) (u : String)
    (t : Nat) (r : CouponRecord) (h : lookup s code = some r)
    (hst : r.status = Status.Unredeemed) :
    tryConsume s code u t =
      (ConsumeOutcome.Consumed r.payload,
       setRecord s code ⟨Status.Redeemed, some u, some t, r.payload⟩) := by
  obtain ⟨st, rb, ra, pl⟩ := r
  simp only at hst
  subst hst
  unfold tryConsume
  rw [h]

/-! ## Linearized concurrent batches

`tryConsume` is a single atomic conditional update, so any concurrent
execution of a batch of calls on the same code is equivalent to running
the calls sequentially in some order (the linearization order).  `runAll`
runs a batch in a given order; quantifying over all orders captures that
which caller wins is arbitrary. -/

/-- Run a batch of `tryConsume` calls (requester, timestamp) on one code
sequentially, collecting the outcomes and threading the store. -/
def runAll (code : List Char) : Store → List (String × Nat) →
    List ConsumeOutcome × Store
  | s, [] => ([], s)
  | s, (u, t) :: rest =>
    ((tryConsume s code u t).1 ::
       (runAll code (tryConsume s code u t).2 rest).1,
     (runAll code (tryConsume s code u t).2 rest).2)

lemma runAll_redeemed (code : List Char) (s : Store)
    (reqs : List (String × Nat)) (r : CouponRecord)
    (h : lookup s code = some r) (hst : r.status = Status.Redeemed) :
    runAll code s reqs =
      (reqs.map (fun _ => ConsumeOutcome.AlreadyRedeemed), s) := by
  induction reqs with
  | nil => rfl
  | cons p rest ih =>
    obtain ⟨u, t⟩ := p
    simp only [runAll]
    rw [tryConsume_redeemed s code u t r h hst]
    rw [ih]
    simp

lemma count_replicate_already (n : Nat) :
    (List.replicate n ConsumeOutcome.AlreadyRedeemed).count
      ConsumeOutcome.AlreadyRedeemed = n := by
  induction n with
  | zero => rfl
  | succ k ih => simp [List.replicate_succ, List.count_cons, ih]

lemma count_replicate_consumed (n : Nat) (p : List Char) :
    (List.replicate n ConsumeOutcome.AlreadyRedeemed).count
      (ConsumeOutcome.Consumed p) = 0 := by
  induction n with
  | zero => rfl
  | succ k ih => simp [List.replicate_succ, List.count_cons, ih]

/-- C1: for any code whose record is `Unredeemed`, any linearization of
N ≥ 2 concurrent `tryConsume` calls yields exactly one `Consumed` (the
linearization winner, here the head of the batch) and N−1
`AlreadyRedeemed`, and the final record's `redeemedBy` is the winner's
identity. -/
theorem exactly_once_consumption
    (s : Store) (code : List Char) (r : CouponRecord)
    (u : String) (t : Nat) (rest : List (String × Nat))
    (hr : lookup s code = some r) (hst : r.status = Status.Unredeemed)
    (hN : 1 ≤ rest.length) :
    (runAll code s ((u, t) :: rest)).1 =
      ConsumeOutcome.Consumed r.payload ::
        rest.map (fun _ => ConsumeOutcome.AlreadyRedeemed) ∧
    (runAll code s ((u, t) :: rest)).1.count
        (ConsumeOutcome.Consumed r.payload) = 1 ∧
    (runAll code s ((u, t) :: rest)).1.count
        ConsumeOutcome.AlreadyRedeemed = ((u, t) :: rest).length - 1 ∧
    lookup (runAll code s ((u, t) :: rest)).2 code =
      some ⟨Status.Redeemed, some u, some t, r.payload⟩ := by
  have hset : lookup (setRecord s code
      ⟨Status.Redeemed, some u, some t, r.payload⟩) code =
      some ⟨Status.Redeemed, some u, some t, r.payload⟩ :=
    lookup_setRecord_self s code _ (by rw [hr]; rfl)
  have hrun : runAll code (setRecord s code
      ⟨Status.Redeemed, some u, some t, r.payload⟩) rest =
      (rest.map (fun _ => ConsumeOutcome.AlreadyRedeemed),
       setRecord s code ⟨Status.Redeemed, some u, some t, r.payload⟩) :=
    runAll_redeemed code _ rest _ hset rfl
  simp only [runAll]
  rw [tryConsume_unredeemed s code u t r hr hst]
  rw [hrun]
  refine ⟨rfl, ?_, ?_, hset⟩
  · simp [List.count_cons, count_replicate_consumed]
  · simp [List.count_cons, count_replicate_already]

/-- Concrete instance of `exactly_once_consumption`: store seeded with
an unredeemed code, two callers. -/
def storeA : Store :=
  [("ABC123".data, ⟨Status.Unredeemed, none, none, "GIFT".data⟩)]

theorem exactly_once_consumption_witness :
    (runAll "ABC123".data storeA [("U1", 5), ("U2", 6)]).1 =
      [ConsumeOutcome.Consumed "GIFT".data,
       ConsumeOutcome.AlreadyRedeemed] ∧
    lookup (runAll "ABC123".data storeA [("U1", 5), ("U2", 6)]).2
        "ABC123".data =
      some ⟨Status.Redeemed, some "U1", some 5, "GIFT".data⟩ := by
  have h := exactly_once_consumption storeA "ABC123".data
      ⟨Status.Unredeemed, none, none, "GIFT".data⟩ "U1" 5 [("U2", 6)]
      (by decide) rfl (by decide)
  exact ⟨h.1, h.2.2.2⟩

/-- C2: once a record is `Redeemed`, any later `tryConsume` on its code
returns `AlreadyRedeemed` and leaves the store unchanged; the record at
that code survives any call on any code unchanged (so `redeemedBy` and
`redeemedAt` are immutable); no call ever creates or deletes records;
and the only mutation any call can make to any record is the one-time
`Unredeemed` → `Redeemed` transition. -/
theorem redeemed_is_final
    (s : Store) (code : List Char) (u : String) (t : Nat)
    (r : CouponRecord) (h : lookup s code = some r)
    (hst : r.status = Status.Redeemed) :
    tryConsume s code u t = (ConsumeOutcome.AlreadyRedeemed, s) ∧
    (∀ c u' t', lookup (tryConsume s c u' t').2 code = some r) ∧
    (∀ c u' t', keys (tryConsume s c u' t').2 = keys s) ∧
    (∀ c u' t' r', lookup s c = some r' →
      lookup (tryConsume s c u' t').2 c = some r' ∨
      (r'.status = Status.Unredeemed ∧
       lookup (tryConsume s c u' t').2 c =
         some ⟨Status.Redeemed, some u', some t', r'.payload⟩)) := by
  refine ⟨tryConsume_redeemed s code u t r h hst, ?_, ?_, ?_⟩
  · intro c u' t'
    by_cases hc : c = code
    · subst hc
      rw [tryConsume_redeemed s c u' t' r h hst]
      exact h
    · cases hl : lookup s c with
      | none =>
        unfold tryConsume
        rw [hl]
        exact h
      | some r' =>
        obtain ⟨st, rb, ra, pl⟩ := r'
        cases st with
        | Unredeemed =>
          rw [tryConsume_unredeemed s c u' t' _ hl rfl]
          rw [lookup_setRecord_ne s c code _ (fun hh => hc hh.symm)]
          exact h
        | Redeemed =>
          rw [tryConsume_redeemed s c u' t' _ hl rfl]
          exact h
  · intro c u' t'
    exact keys_tryConsume s c u' t'
  · intro c u' t' r' hl
    obtain ⟨st, rb, ra, pl⟩ := r'
    cases st with
    | Unredeemed =>
      right
      refine ⟨rfl, ?_⟩
      rw [tryConsume_unredeemed s c u' t' _ hl rfl]
      exact lookup_setRecord_self s c _ (by rw [hl]; rfl)
    | Redeemed =>
      left
      rw [tryConsume_redeemed s c u' t' _ hl rfl]
      exact hl

/-- Concrete instance of `redeemed_is_final`: store holding one already
redeemed code. -/
def storeB : Store :=
  [("ZZZ".data, ⟨Status.Redeemed, some "U9", some 1, "PRIZE".data⟩)]

theorem redeemed_is_final_witness :
    tryConsume storeB "ZZZ".data "U2" 7 =
      (ConsumeOutcome.AlreadyRedeemed, storeB) ∧
    lookup (tryConsume storeB "ZZZ".data "U2" 7).2 "ZZZ".data =
      some ⟨Status.Redeemed, some "U9", some 1, "PRIZE".data⟩ := by
  have h := redeemed_is_final storeB "ZZZ".data "U2" 7
      ⟨Status.Redeemed, some "U9", some 1, "PRIZE".data⟩ (by decide) rfl
  exact ⟨h.1, h.2.1 "ZZZ".data "U2" 7⟩

/-! ## Request codec and redemption engine (modelled from the spec) -/

/-- Whitespace recognized when trimming and tokenizing inbound text. -/
def isWS (c : Char) : Bool :=
  c == ' ' || c == '\t' || c == '\n' || c == '\r'

/-- Split a character list into maximal whitespace-free tokens; `cur`
accumulates the current token in reverse. -/
def tokenizeAux : List Char → List Char → List (List Char)
  | cur, [] => if cur.isEmpty then [] else [cur.reverse]
  | cur, c :: rest =>
    if isWS c then
      if cur.isEmpty then tokenizeAux [] rest
      else cur.reverse :: tokenizeAux [] rest
    else tokenizeAux (c :: cur) rest

/-- Tokens of an inbound text payload. -/
def tokenize (raw : List Char) : List (List Char) :=
  tokenizeAux [] raw

/-- Modelled from the spec: `decode(rawBytes, ...)` extracts a single
trimmed, case-normalized token from free-form text; empty,
whitespace-only, multi-token or over-length input is rejected (`none`,
i.e. `Malformed`).  The `coupons` package implementing the codec is not
in the source tree.  The over-length bound is a parameter because the
spec fixes no concrete bound. -/
def decode (maxLen : Nat) (raw : List Char) : Option (List Char) :=
  match tokenize raw with
  | [t] => if t.length ≤ maxLen then some (t.map Char.toUpper) else none
  | _ => none

/-- Modelled from the spec: `RedemptionResult.outcome` enum. -/
inductive Outcome where
  | Success
  | AlreadyRedeemed
  | NotFound
  | Malformed
  | StorageError
deriving DecidableEq, Repr

/-- Modelled from the spec: `RedemptionResult = {outcome, payload}` (the
`humanMessage` is produced by `encodeL`). -/
structure RedemptionResult where
  outcome : Outcome
  payload : Option (List Char)
deriving DecidableEq, Repr

/-- Modelled from the spec: the engine's 1:1 map from storage outcome to
`RedemptionResult` outcome. -/
def mapResult : ConsumeOutcome → RedemptionResult
  | ConsumeOutcome.Consumed p => ⟨Outcome.Success, some p⟩
  | ConsumeOutcome.AlreadyRedeemed => ⟨Outcome.AlreadyRedeemed, none⟩
  | ConsumeOutcome.NotFound => ⟨Outcome.NotFound, none⟩
  | ConsumeOutcome.StorageError => ⟨Outcome.StorageError, none⟩

/-- Modelled from the spec: the redemption engine for one request.
Returns the result, the updated store, and the number of storage calls
made (0 when decoding failed, 1 otherwise).  The `coupons` package
implementing the engine is not in the source tree. -/
def handleRequest (maxLen : Nat) (s : Store) (raw : List Char)
    (u : String) (t : Nat) : RedemptionResult × Store × Nat :=
  match decode maxLen raw with
  | none => (⟨Outcome.Malformed, none⟩, s, 0)
  | some code =>
    (mapResult (tryConsume s code u t).1, (tryConsume s code u t).2, 1)

/-- Modelled from the spec: `encode(RedemptionResult)` renders the fixed
human-readable response string per outcome. -/
def encodeL (r : RedemptionResult) : List Char :=
  match r.outcome with
  | Outcome.Success => "SUCCESS: ".data ++ r.payload.getD []
  | Outcome.AlreadyRedeemed => "ALREADY_REDEEMED".data
  | Outcome.NotFound => "NOT_FOUND".data
  | Outcome.Malformed => "MALFORMED_REQUEST".data
  | Outcome.StorageError => "TEMPORARY_ERROR".data

lemma tokenizeAux_ws (raw : List Char) (h : raw.all isWS = true) :
    tokenizeAux [] raw = [] := by
  induction raw with
  | nil => rfl
  | cons c rest ih =>
    simp only [List.all_cons, Bool.and_eq_true] at h
    obtain ⟨hc, hrest⟩ := h
    simp [tokenizeAux, hc]
    exact ih hrest

/-- C3: whenever decoding fails — in particular on empty input,
whitespace-only input, and input with more than one token — the engine
reports `Malformed`, leaves the store untouched and performs zero
storage calls (`tryConsume` is never invoked). -/
theorem malformed_never_touches_storage
    (maxLen : Nat) (s : Store) (u : String) (t : Nat) :
    (∀ raw, decode maxLen raw = none →
      handleRequest maxLen s raw u t =
        (⟨Outcome.Malformed, none⟩, s, 0)) ∧
    (∀ raw, raw.all isWS = true → decode maxLen raw = none) ∧
    (∀ raw, 2 ≤ (tokenize raw).length → decode maxLen raw = none) := by
  refine ⟨?_, ?_, ?_⟩
  · intro raw h
    unfold handleRequest
    rw [h]
  · intro raw h
    unfold decode tokenize
    rw [tokenizeAux_ws raw h]
  · intro raw h
    unfold decode
    cases hT : tokenize raw with
    | nil => rfl
    | cons a as =>
      cases as with
      | nil =>
        rw [hT] at h
        simp at h
      | cons b bs => rfl

theorem malformed_never_touches_storage_witness :
    decode 64 "AB CD".data = none ∧
    handleRequest 64 storeA "   ".data "U1" 0 =
      (⟨Outcome.Malformed, none⟩, storeA, 0) := by
  have h := malformed_never_touches_storage 64 storeA "U1" 0
  exact ⟨h.2.2 "AB CD".data (by decide),
         h.1 "   ".data (h.2.1 "   ".data (by decide))⟩

/-- C4: for every request that reaches storage (decode succeeded), the
engine's result is exactly the 1:1 image of the `tryConsume` outcome,
with one storage call made; the 1:1 map sends `Consumed p` to `Success`
with payload `p`, `AlreadyRedeemed` to `AlreadyRedeemed`, `NotFound` to
`NotFound` and `StorageError` to `StorageError`; and every encoded
response is one of the five fixed strings. -/
theorem outcome_mapping_and_responses
    (maxLen : Nat) (s : Store) (raw code : List Char) (u : String)
    (t : Nat) :
    (decode maxLen raw = some code →
      (handleRequest maxLen s raw u t).1 =
        mapResult (tryConsume s code u t).1 ∧
      (handleRequest maxLen s raw u t).2.2 = 1) ∧
    (∀ p, mapResult (ConsumeOutcome.Consumed p) =
      ⟨Outcome.Success, some p⟩) ∧
    mapResult ConsumeOutcome.AlreadyRedeemed =
      ⟨Outcome.AlreadyRedeemed, none⟩ ∧
    mapResult ConsumeOutcome.NotFound = ⟨Outcome.NotFound, none⟩ ∧
    mapResult ConsumeOutcome.StorageError =
      ⟨Outcome.StorageError, none⟩ ∧
    (∀ r : RedemptionResult,
      (∃ p, encodeL r = "SUCCESS: ".data ++ p) ∨
      encodeL r = "ALREADY_REDEEMED".data ∨
      encodeL r = "NOT_FOUND".data ∨
      encodeL r = "MALFORMED_REQUEST".data ∨
      encodeL r = "TEMPORARY_ERROR".data) := by
  refine ⟨?_, fun p => rfl, rfl, rfl, rfl, ?_⟩
  · intro h
    unfold handleRequest
    rw [h]
    exact ⟨rfl, rfl⟩
  · intro r
    obtain ⟨o, p⟩ := r
    cases o with
    | Success => exact Or.inl ⟨p.getD [], rfl⟩
    | AlreadyRedeemed => exact Or.inr (Or.inl rfl)
    | NotFound => exact Or.inr (Or.inr (Or.inl rfl))
    | Malformed => exact Or.inr (Or.inr (Or.inr (Or.inl rfl)))
    | StorageError => exact Or.inr (Or.inr (Or.inr (Or.inr rfl)))

theorem outcome_mapping_and_responses_witness :
    (handleRequest 64 storeA "abc123".data "U1" 5).1 =
      mapResult (tryConsume storeA "ABC123".data "U1" 5).1 ∧
    mapResult ConsumeOutcome.NotFound = ⟨Outcome.NotFound, none⟩ := by
  have h := outcome_mapping_and_responses 64 storeA "abc123".data
      "ABC123".data "U1" 5
  exact ⟨(h.1 (by decide)).1, h.2.2.2.1⟩

/-- C6: `encodeL` is deterministic and total — every `RedemptionResult`
maps to exactly one output byte string, and encoding equal results
yields byte-identical output. -/
theorem encode_total_deterministic :
    (∀ r : RedemptionResult, ∃! out : List Char, encodeL r = out) ∧
    (∀ r₁ r₂ : RedemptionResult, r₁ = r₂ → encodeL r₁ = encodeL r₂) := by
  constructor
  · intro r
    exact ⟨encodeL r, rfl, fun y hy => hy.symm⟩
  · intro r₁ r₂ h
    rw [h]

theorem encode_total_deterministic_witness :
    (∃! out : List Char, encodeL ⟨Outcome.NotFound, none⟩ = out) ∧
    encodeL ⟨Outcome.AlreadyRedeemed, none⟩ =
      encodeL ⟨Outcome.AlreadyRedeemed, none⟩ :=
  ⟨encode_total_deterministic.1 ⟨Outcome.NotFound, none⟩,
   encode_total_deterministic.2 ⟨Outcome.AlreadyRedeemed, none⟩
     ⟨Outcome.AlreadyRedeemed, none⟩ rfl⟩

/-! ## Bootstrap: embedding of `cmd/root.go`

`rootCmd.Run` is embedded as a function of an environment that supplies
the results of the external collaborators it consults (viper
configuration values, `net.SplitHostPort`, `storage.NewStorage`, the
filesystem and messaging-client API calls).  Each `jww.FATAL.Panicf`
site becomes a `FatalReason`; the trailing `select {}` becomes the
`serving` flag of the resulting trace. -/

/-- `storage.Params` as built in `cmd/root.go` lines 50–56. -/
structure StorageParams where
  username : String
  password : String
  dbName : String
  address : String
  port : String
deriving DecidableEq, Repr

/-- Opaque handle returned by `storage.NewStorage`. -/
abbrev StorageHandle := Nat

/-- Opaque handle returned by `api.Login`. -/
abbrev Client := Nat

/-- Message kinds of the messaging client's switchboard; `Text` is the
single kind the bot listens for (`message.Text` in `cmd/root.go` line
120). -/
inductive MessageKind where
  | Text
  | NoType
  | KeyExchangeTrigger
deriving DecidableEq, Repr

/-- Modelled from the spec: the listener built by `coupons.New(s, cl)`
(`cmd/root.go` line 119).  The `coupons` package is not in the source
tree; per the spec the Storage Adapter is passed into the handler by
explicit construction. -/
structure CouponListener where
  storage : StorageHandle
  client : Client
deriving DecidableEq, Repr

/-- `coupons.New(s, cl)`: builds the listener from the storage object
and the client, both passed as arguments. -/
def couponsNew (s : StorageHandle) (cl : Client) : CouponListener :=
  ⟨s, cl⟩

/-- The reserved zero-user identity (`id.ZeroUser`). -/
def zeroUser : Nat := 0

/-- One switchboard listener registration
(`cl.GetSwitchboard().RegisterListener(&id.ZeroUser, message.Text,
impl)`). -/
structure Registration where
  user : Nat
  kind : MessageKind
  listener : CouponListener
deriving DecidableEq, Repr

/-- The `jww.FATAL.Panicf` sites of `rootCmd.Run`, in program order. -/
inductive FatalReason where
  | splitHostPortFail
  | storageInitFail
  | ndfReadFail
  | newClientFail
  | loginFail
  | qrGenFail
  | qrWriteFail
  | followerFail
deriving DecidableEq, Repr

/-- Results of the external collaborators consulted by `rootCmd.Run`:
viper configuration strings, `net.SplitHostPort` on the configured
address, `storage.NewStorage`, session existence, NDF file read,
client creation/login, QR generation/write, network follower start. -/
structure RunEnv where
  dbAddress : String
  dbUsername : String
  dbPassword : String
  dbName : String
  splitHostPort : Except Unit (String × String)
  newStorage : StorageParams → Except Unit StorageHandle
  sessionExists : Bool
  readNDF : Except Unit (List Char)
  newClient : List Char → Except Unit Unit
  login : Except Unit Client
  makeQR : Except Unit (List Char)
  writeQR : List Char → Except Unit Unit
  startFollower : Except Unit Unit

/-- Observable trace of one `rootCmd.Run` execution: the panic reached
(if any), the storage parameters built, whether `storage.NewStorage`
was reached, the switchboard registrations made, and whether the
process reached the final `select {}` (serving). -/
structure RunTrace where
  fatal : Option FatalReason
  storageParams : Option StorageParams
  storageInitAttempted : Bool
  registrations : List Registration
  serving : Bool
deriving DecidableEq, Repr

/-- `cmd/root.go` lines 40–48: with an empty `dbAddress` the
`addr`/`port` variables keep their zero values; otherwise
`net.SplitHostPort` decides, and an error is fatal. -/
def addrStep (env : RunEnv) : Except Unit (String × String) :=
  if env.dbAddress = "" then Except.ok ("", "") else env.splitHostPort

/-- `cmd/root.go` lines 50–56: the `storage.Params` literal. -/
def mkParams (env : RunEnv) (addr port : String) : StorageParams :=
  ⟨env.dbUsername, env.dbPassword, env.dbName, addr, port⟩

/-- `cmd/root.go` lines 70–80: when no session exists, read the NDF and
create a new client; either failure is fatal. -/
def clientStep (env : RunEnv) : Except FatalReason Unit :=
  if env.sessionExists then Except.ok ()
  else
    match env.readNDF with
    | Except.error _ => Except.error FatalReason.ndfReadFail
    | Except.ok ndf =>
      match env.newClient ndf with
      | Except.error _ => Except.error FatalReason.newClientFail
      | Except.ok _ => Except.ok ()

/-- `cmd/root.go` lines 83–123 after storage initialization succeeded
with handle `s` and params `sp`: login, QR generation and write,
network follower, then the single listener registration and
`select {}`. -/
def afterStorage (env : RunEnv) (sp : StorageParams)
    (s : StorageHandle) : RunTrace :=
  match clientStep env with
  | Except.error f => ⟨some f, some sp, true, [], false⟩
  | Except.ok _ =>
    match env.login with
    | Except.error _ =>
      ⟨some FatalReason.loginFail, some sp, true, [], false⟩
    | Except.ok cl =>
      match env.makeQR with
      | Except.error _ =>
        ⟨some FatalReason.qrGenFail, some sp, true, [], false⟩
      | Except.ok qr =>
        match env.writeQR qr with
        | Except.error _ =>
          ⟨some FatalReason.qrWriteFail, some sp, true, [], false⟩
        | Except.ok _ =>
          match env.startFollower with
          | Except.error _ =>
            ⟨some FatalReason.followerFail, some sp, true, [], false⟩
          | Except.ok _ =>
            ⟨none, some sp, true,
             [⟨zeroUser, MessageKind.Text, couponsNew s cl⟩], true⟩

/-- The body of `rootCmd.Run` (`cmd/root.go` lines 34–124), after
`initConfig`/`initLog`. -/
def rootRun (env : RunEnv) : RunTrace :=
  match addrStep env with
  | Except.error _ =>
    ⟨some FatalReason.splitHostPortFail, none, false, [], false⟩
  | Except.ok (addr, port) =>
    match env.newStorage (mkParams env addr port) with
    | Except.error _ =>
      ⟨some FatalReason.storageInitFail, some (mkParams env addr port),
       true, [], false⟩
    | Except.ok s => afterStorage env (mkParams env addr port) s

/-- Switchboard dispatch: an inbound message is handled by the first
registration matching its recipient identity and its message kind;
`none` means the message is ignored (not an error). -/
structure Inbound where
  recipient : Nat
  kind : MessageKind
deriving DecidableEq, Repr

def dispatch (regs : List Registration) (m : Inbound) :
    Option CouponListener :=
  match regs.find?
      (fun rg => decide (rg.user = m.recipient ∧ rg.kind = m.kind)) with
  | none => none
  | some rg => some rg.listener

lemma rootRun_success_trace (env : RunEnv) (addr port : String)
    (s : StorageHandle) (cl : Client) (qr : List Char)
    (ha : addrStep env = Except.ok (addr, port))
    (hs : env.newStorage (mkParams env addr port) = Except.ok s)
    (hc : clientStep env = Except.ok ())
    (hl : env.login = Except.ok cl)
    (hq : env.makeQR = Except.ok qr)
    (hw : env.writeQR qr = Except.ok ())
    (hf : env.startFollower = Except.ok ()) :
    rootRun env =
      ⟨none, some (mkParams env addr port), true,
       [⟨zeroUser, MessageKind.Text, couponsNew s cl⟩], true⟩ := by
  unfold rootRun
  simp only [ha, hs]
  unfold afterStorage
  simp only [hc, hl, hq, hw, hf]

lemma afterStorage_attempted (env : RunEnv) (sp : StorageParams)
    (s : StorageHandle) :
    (afterStorage env sp s).storageInitAttempted = true ∧
    (afterStorage env sp s).storageParams = some sp := by
  unfold afterStorage
  repeat' split
  all_goals exact ⟨rfl, rfl⟩

/-- C5: when `storage.NewStorage` fails (`cmd/root.go` lines 58–62) the
process halts with a fatal panic — it never reaches the listener
registration or the serving loop; and message handling itself never
faults at process level: every request completes with one of the five
`RedemptionResult` outcomes, so storage unavailability at startup is
the only process-level fault of the core. -/
theorem storage_failure_is_fatal
    (env : RunEnv) (addr port : String)
    (ha : addrStep env = Except.ok (addr, port))
    (hs : env.newStorage (mkParams env addr port) = Except.error ()) :
    (rootRun env).fatal = some FatalReason.storageInitFail ∧
    (rootRun env).serving = false ∧
    (rootRun env).registrations = [] ∧
    (∀ maxLen st raw u t,
      (handleRequest maxLen st raw u t).1.outcome ∈
        [Outcome.Success, Outcome.AlreadyRedeemed, Outcome.NotFound,
         Outcome.Malformed, Outcome.StorageError]) := by
  have hr : rootRun env =
      ⟨some FatalReason.storageInitFail, some (mkParams env addr port),
       true, [], false⟩ := by
    unfold rootRun
    simp only [ha, hs]
  rw [hr]
  refine ⟨rfl, rfl, rfl, ?_⟩
  intro maxLen st raw u t
  cases hO : (handleRequest maxLen st raw u t).1.outcome <;> simp

/-- Environment in which every collaborator succeeds: empty database
address, storage handle 7, client handle 3. -/
def envOk : RunEnv :=
  ⟨"", "user", "pw", "couponsdb", Except.error (), fun _ => Except.ok 7,
   true, Except.ok [], fun _ => Except.ok (), Except.ok 3, Except.ok [],
   fun _ => Except.ok (), Except.ok ()⟩

/-- Environment in which `storage.NewStorage` fails. -/
def envStorageFail : RunEnv :=
  ⟨"", "user", "pw", "couponsdb", Except.error (),
   fun _ => Except.error (), true, Except.ok [], fun _ => Except.ok (),
   Except.ok 3, Except.ok [], fun _ => Except.ok (), Except.ok ()⟩

/-- Environment with a non-empty database address that is not a valid
host:port pair. -/
def envBadAddr : RunEnv :=
  ⟨"nonsense", "user", "pw", "couponsdb", Except.error (),
   fun _ => Except.ok 7, true, Except.ok [], fun _ => Except.ok (),
   Except.ok 3, Except.ok [], fun _ => Except.ok (), Except.ok ()⟩

theorem storage_failure_is_fatal_witness :
    (rootRun envStorageFail).fatal = some FatalReason.storageInitFail ∧
    (rootRun envStorageFail).serving = false := by
  have h := storage_failure_is_fatal envStorageFail "" "" rfl rfl
  exact ⟨h.1, h.2.1⟩

/-- C7: on the fully successful startup path exactly one inbound
handler is registered, addressed to the reserved zero-user identity and
restricted to the `Text` message kind; dispatching a message of any
other kind matches no listener and is simply ignored. -/
theorem single_text_listener
    (env : RunEnv) (addr port : String) (s : StorageHandle)
    (cl : Client) (qr : List Char)
    (ha : addrStep env = Except.ok (addr, port))
    (hs : env.newStorage (mkParams env addr port) = Except.ok s)
    (hc : clientStep env = Except.ok ())
    (hl : env.login = Except.ok cl)
    (hq : env.makeQR = Except.ok qr)
    (hw : env.writeQR qr = Except.ok ())
    (hf : env.startFollower = Except.ok ()) :
    (rootRun env).registrations.length = 1 ∧
    (∀ rg ∈ (rootRun env).registrations,
      rg.user = zeroUser ∧ rg.kind = MessageKind.Text) ∧
    (∀ m : Inbound, m.kind ≠ MessageKind.Text →
      dispatch (rootRun env).registrations m = none) := by
  rw [rootRun_success_trace env addr port s cl qr ha hs hc hl hq hw hf]
  refine ⟨rfl, ?_, ?_⟩
  · intro rg hrg
    simp only [List.mem_singleton] at hrg
    subst hrg
    exact ⟨rfl, rfl⟩
  · intro m hm
    have hfalse :
        decide ((⟨zeroUser, MessageKind.Text, couponsNew s cl⟩ :
          Registration).user = m.recipient ∧
          (⟨zeroUser, MessageKind.Text, couponsNew s cl⟩ :
          Registration).kind = m.kind) = false := by
      rw [decide_eq_false_iff_not]
      rintro ⟨-, h2⟩
      exact hm h2.symm
    simp [dispatch, List.find?, hfalse]

theorem single_text_listener_witness :
    (rootRun envOk).registrations.length = 1 ∧
    dispatch (rootRun envOk).registrations ⟨0, MessageKind.NoType⟩ =
      none := by
  have h := single_text_listener envOk "" "" 7 3 [] rfl rfl rfl rfl rfl
      rfl rfl
  exact ⟨h.1, h.2.2 ⟨0, MessageKind.NoType⟩ (by decide)⟩

/-- C8: an empty `dbAddress` yields storage params with empty `Address`
and `Port` and startup proceeds to storage initialization; a non-empty
`dbAddress` that `net.SplitHostPort` rejects is fatal before
`storage.NewStorage` is ever reached. -/
theorem db_address_config (env : RunEnv) :
    (env.dbAddress = "" →
      (rootRun env).storageInitAttempted = true ∧
      (rootRun env).storageParams = some (mkParams env "" "") ∧
      (mkParams env "" "").address = "" ∧
      (mkParams env "" "").port = "") ∧
    (env.dbAddress ≠ "" → env.splitHostPort = Except.error () →
      (rootRun env).fatal = some FatalReason.splitHostPortFail ∧
      (rootRun env).storageInitAttempted = false) := by
  constructor
  · intro h
    have ha : addrStep env = Except.ok ("", "") := by
      unfold addrStep
      rw [if_pos h]
    unfold rootRun
    simp only [ha]
    split
    · exact ⟨rfl, rfl, rfl, rfl⟩
    · rename_i s heq
      have hat := afterStorage_attempted env (mkParams env "" "") s
      exact ⟨hat.1, hat.2, rfl, rfl⟩
  · intro h he
    have ha : addrStep env = Except.error () := by
      unfold addrStep
      rw [if_neg h]
      exact he
    unfold rootRun
    simp [ha]

theorem db_address_config_witness :
    (rootRun envOk).storageInitAttempted = true ∧
    (rootRun envBadAddr).fatal = some FatalReason.splitHostPortFail ∧
    (rootRun envBadAddr).storageInitAttempted = false := by
  have h1 := db_address_config envOk
  have h2 := db_address_config envBadAddr
  exact ⟨(h1.1 rfl).1, (h2.2 (by decide) rfl).1, (h2.2 (by decide) rfl).2⟩

/-- C9: on the successful startup path the switchboard registration
list is exactly one entry whose listener is `coupons.New(s, cl)` — the
storage object returned by `storage.NewStorage` is passed into the
handler as an explicit constructor argument, and the built listener
holds precisely that storage handle and client. -/
theorem storage_passed_explicitly
    (env : RunEnv) (addr port : String) (s : StorageHandle)
    (cl : Client) (qr : List Char)
    (ha : addrStep env = Except.ok (addr, port))
    (hs : env.newStorage (mkParams env addr port) = Except.ok s)
    (hc : clientStep env = Except.ok ())
    (hl : env.login = Except.ok cl)
    (hq : env.makeQR = Except.ok qr)
    (hw : env.writeQR qr = Except.ok ())
    (hf : env.startFollower = Except.ok ()) :
    (rootRun env).registrations =
      [⟨zeroUser, MessageKind.Text, couponsNew s cl⟩] ∧
    (couponsNew s cl).storage = s ∧
    (couponsNew s cl).client = cl := by
  rw [rootRun_success_trace env addr port s cl qr ha hs hc hl hq hw hf]
  exact ⟨rfl, rfl, rfl⟩

theorem storage_passed_explicitly_witness :
    (rootRun envOk).registrations =
      [⟨zeroUser, MessageKind.Text, couponsNew 7 3⟩] ∧
    (couponsNew 7 3).storage = 7 := by
  have h := storage_passed_explicitly envOk "" "" 7 3 [] rfl rfl rfl rfl
      rfl rfl rfl
  exact ⟨h.1, h.2.1⟩

/-! ## Configuration bootstrap: embedding of `initConfig`
(`cmd/root.go` lines 136–160) -/

/-- Results of the collaborators `initConfig` consults: the `--config`
flag value, `utils.SearchDefaultLocations`, `utils.ExpandPath` and
`viper.ReadInConfig`. -/
structure ConfigEnv where
  cfgFileFlag : String
  searchDefault : Except Unit String
  expandPath : String → Except Unit String
  readInConfig : String → Except Unit Unit

/-- The two `jww.FATAL.Panicf` sites of `initConfig`. -/
inductive ConfigFatal where
  | searchFail
  | expandFail
deriving DecidableEq, Repr

/-- Observable outcome of `initConfig`: the panic reached (if any), the
final `validConfig` flag, and whether a config file was actually read
(false means every later `viper.Get*` yields the zero value). -/
structure ConfigResult where
  halted : Option ConfigFatal
  validConfig : Bool
  configLoaded : Bool
deriving DecidableEq, Repr

/-- `initConfig` (`cmd/root.go` lines 136–160): locate or expand the
config file path (failure panics), then read it in (failure only prints
the error and clears `validConfig`). -/
def initConfig (env : ConfigEnv) : ConfigResult :=
  match (if env.cfgFileFlag = "" then
            match env.searchDefault with
            | Except.error _ => Except.error ConfigFatal.searchFail
            | Except.ok f => Except.ok f
          else
            match env.expandPath env.cfgFileFlag with
            | Except.error _ => Except.error ConfigFatal.expandFail
            | Except.ok f => Except.ok f : Except ConfigFatal String) with
  | Except.error f => ⟨some f, false, false⟩
  | Except.ok f =>
    match env.readInConfig f with
    | Except.error _ => ⟨none, false, false⟩
    | Except.ok _ => ⟨none, true, true⟩

/-- A configuration setting as read after `initConfig`: `viper` returns
the file's value only when a config file was read, and the zero value
otherwise. -/
def settingOr (r : ConfigResult) (fileVal : String) : String :=
  if r.configLoaded then fileVal else ""

/-- C10: a config file that is found (or expanded) but cannot be read
or parsed does not halt startup — `initConfig` returns with
`validConfig = false` and every setting at its zero value; and the only
halts of `initConfig` are failing to locate the default config file or
failing to expand the given path. -/
theorem config_read_failure_not_fatal (env : ConfigEnv) (f : String) :
    (env.cfgFileFlag = "" → env.searchDefault = Except.ok f →
      env.readInConfig f = Except.error () →
      initConfig env = ⟨none, false, false⟩ ∧
      (∀ v, settingOr (initConfig env) v = "")) ∧
    (env.cfgFileFlag ≠ "" → env.expandPath env.cfgFileFlag = Except.ok f →
      env.readInConfig f = Except.error () →
      initConfig env = ⟨none, false, false⟩) ∧
    (env.cfgFileFlag = "" → env.searchDefault = Except.error () →
      (initConfig env).halted = some ConfigFatal.searchFail) ∧
    (env.cfgFileFlag ≠ "" →
      env.expandPath env.cfgFileFlag = Except.error () →
      (initConfig env).halted = some ConfigFatal.expandFail) ∧
    ((initConfig env).halted ≠ none →
      (env.cfgFileFlag = "" ∧ env.searchDefault = Except.error ()) ∨
      (env.cfgFileFlag ≠ "" ∧
       env.expandPath env.cfgFileFlag = Except.error ())) := by
  refine ⟨?_, ?_, ?_, ?_, ?_⟩
  · intro h hs hr
    have : initConfig env = ⟨none, false, false⟩ := by
      unfold initConfig
      simp only [if_pos h, hs, hr]
    exact ⟨this, fun v => by rw [this]; rfl⟩
  · intro h he hr
    unfold initConfig
    simp only [if_neg h, he, hr]
  · intro h hs
    unfold initConfig
    simp only [if_pos h, hs]
  · intro h he
    unfold initConfig
    simp only [if_neg h, he]
  · intro h
    by_cases hflag : env.cfgFileFlag = ""
    · left
      refine ⟨hflag, ?_⟩
      cases hs : env.searchDefault with
      | error e => rfl
      | ok f' =>
        exfalso
        apply h
        unfold initConfig
        simp only [if_pos hflag, hs]
        cases hr : env.readInConfig f' with
        | error e => rfl
        | ok u => rfl
    · right
      refine ⟨hflag, ?_⟩
      cases he : env.expandPath env.cfgFileFlag with
      | error e => rfl
      | ok f' =>
        exfalso
        apply h
        unfold initConfig
        simp only [if_neg hflag, he]
        cases hr : env.readInConfig f' with
        | error e => rfl
        | ok u => rfl

/-- Environment whose config file is found but fails to parse. -/
def cfgEnvUnreadable : ConfigEnv :=
  ⟨"", Except.ok "/etc/udb.yaml", fun p => Except.ok p,
   fun _ => Except.error ()⟩

theorem config_read_failure_not_fatal_witness :
    initConfig cfgEnvUnreadable = ⟨none, false, false⟩ ∧
    settingOr (initConfig cfgEnvUnreadable) "somePath" = "" := by
  have h := config_read_failure_not_fatal cfgEnvUnreadable "/etc/udb.yaml"
  exact ⟨(h.1 rfl rfl rfl).1, (h.1 rfl rfl rfl).2 "somePath"⟩

end CouponBot
